import Mathlib

/-!
Shallow embedding of `genmod/commands/score_compounds.py` (the `compound`
click command): the coordinator of the compound-scoring pipeline.

The coordinator is a straight-line Python function; we embed it as a
function producing the ordered list of externally visible events it
performs (collaborator calls, queue operations, process start/join,
file operations), together with the error outcome of the run.
Collaborator internals (`get_batches`, `CompoundScorer`, `VariantPrinter`,
`add_metadata`, `sort_variants`, `print_headers`, `print_variant`) are not
part of this file's source; where a claim depends on their concurrent
behaviour we model the queue/worker/printer system separately below,
following the spec's component contracts.
-/

set_option autoImplicit false

namespace Genmod

/-! ### A model of the input text stream

`click.File('r')` hands the command an opened text stream. We model it as a
list of lines plus a read position and a seekability flag (standard input
fed from a pipe is not seekable; `seek` raises there). -/

structure VStream where
  lines : List String
  pos : Nat
  seekable : Bool
deriving DecidableEq, Repr

/-- Python `file.seek(n)`: repositions a seekable stream; on a non-seekable stream
(e.g. a pipe on standard input) Python raises `io.UnsupportedOperation`. -/
def VStream.seek (s : VStream) (n : Nat) : Except String VStream :=
  if s.seekable then .ok { s with pos := n } else .error "UnsupportedOperation"

/-- Python's `str.rstrip()`: drop trailing whitespace characters. -/
def pyRstrip (s : String) : String :=
  ⟨(s.data.reverse.dropWhile Char.isWhitespace).reverse⟩

/-- Python `line.startswith('#')` on the rstripped line. -/
def hashFirst (s : String) : Bool :=
  match s.data with
  | '#' :: _ => true
  | _ => false

/-- Python `line.startswith('##')` on the rstripped line. -/
def dblHash (s : String) : Bool :=
  match s.data with
  | '#' :: '#' :: _ => true
  | _ => false

/-- Number of lines the header-reading `for` loop consumes from the stream:
every line satisfying `startswith('#')` plus, when one exists, the first
non-`#` line (the loop body runs on it and then hits `break`). -/
def scanCount : List String → Nat
  | [] => 0
  | l :: ls => if hashFirst (pyRstrip l) then scanCount ls + 1 else 1

/-- Index of the first data record in the file: the number of leading
lines that start with `#` (after rstrip). -/
def firstDataIndex : List String → Nat
  | [] => 0
  | l :: ls => if hashFirst (pyRstrip l) then firstDataIndex ls + 1 else 0

/-! ### The event trace of the coordinator -/

/-- Externally visible events the `compound` coordinator performs, in
source order.  Arguments record exactly what the source passes. -/
inductive Ev where
  | parseMetaData (line : String)
  | parseHeaderLine (line : String)
  | seekStream (pos : Nat)
  | addMetadata (sect key annotationNumber entryType description : String)
  | mkJoinableQueue (maxsize : Nat)
  | mkResultsQueue
  | mkTempFile
  | startWorker (idx : Nat)
  | startPrinter (mode : String) (tempPath : String)
  | getBatchesCall (vep compoundMode : Bool)
  | putStopSign
  | joinVariantQueue
  | putResultsStop
  | joinPrinter
  | sortVariantsCall (mode : String)
  | printHeadersCall (outfile : Option String) (silent : Bool)
  | printVariantCall (line : String) (outfile : Option String) (mode : String) (silent : Bool)
  | removeTempFile
deriving DecidableEq, Repr

/-- Events of the header-reading loop (lines 68–76 of the source):
`parse_meta_data` for `##` lines, `parse_header_line` for other `#` lines,
`break` on the first non-`#` line. -/
def headerLoopEvents : List String → List Ev
  | [] => []
  | l :: ls =>
    let line := pyRstrip l
    if dblHash line then Ev.parseMetaData line :: headerLoopEvents ls
    else if hashFirst line then Ev.parseHeaderLine line :: headerLoopEvents ls
    else []

/-- The CLI arguments of the `compound` command, plus the opened stream's
seekability. -/
structure Args where
  fileLines : List String
  seekable : Bool
  silent : Bool
  outfile : Option String
  processes : Nat
  vep : Bool
deriving DecidableEq, Repr

/-- How a run can abort. -/
inductive RunErr where
  | seekUnsupported
  | removeFailed
deriving DecidableEq, Repr

/-- The fixed description string passed to `add_metadata`. -/
def correctedRankDescription : String := "The corrected rank score for this variant."

/-- The event trace and error outcome of one run of the `compound`
coordinator, translated line by line from the source.

Oracles standing for collaborator behaviour the coordinator merely
observes: `tempName` is the name `NamedTemporaryFile` chose; `sortedLines`
is the content of the scratch file when the coordinator re-reads it after
`sort_variants`; `removeFails` says whether `os.remove` raises.

Source order: header loop; `variant_file.seek(0)`; `add_metadata`;
`JoinableQueue(maxsize=1000)`; `Manager().Queue()`; `NamedTemporaryFile`;
start the scorer workers; start the `VariantPrinter` (its `outfile` is the
temp file, mode `'chromosome'`); `get_batches(...)`; one
`variant_queue.put(None)` per worker; `variant_queue.join()`;
`results.put(None)`; `variant_printer.join()`; `sort_variants`;
`print_headers`; one `print_variant` per line of the temp file;
`os.remove` (unguarded: a failure propagates). -/
def compoundRun (a : Args) (tempName : String) (sortedLines : List String)
    (removeFails : Bool) : List Ev × Option RunErr :=
  let hdr := headerLoopEvents a.fileLines
  if a.seekable then
    (hdr
      ++ [Ev.seekStream 0,
          Ev.addMetadata "info" "CorrectedRankScore" "1" "Integer" correctedRankDescription,
          Ev.mkJoinableQueue 1000, Ev.mkResultsQueue, Ev.mkTempFile]
      ++ (List.range a.processes).map Ev.startWorker
      ++ [Ev.startPrinter "chromosome" tempName, Ev.getBatchesCall a.vep true]
      ++ List.replicate a.processes Ev.putStopSign
      ++ [Ev.joinVariantQueue, Ev.putResultsStop, Ev.joinPrinter,
          Ev.sortVariantsCall "chromosome",
          Ev.printHeadersCall a.outfile a.silent]
      ++ sortedLines.map (fun l => Ev.printVariantCall l a.outfile "modified" a.silent)
      ++ (if removeFails then [] else [Ev.removeTempFile]),
     if removeFails then some RunErr.removeFailed else none)
  else (hdr, some RunErr.seekUnsupported)

/-- The position of the variant stream at the moment `get_batches` is
called: the header loop consumes `scanCount` lines, then line 78 performs
`variant_file.seek(0)`. -/
def streamPosAtGetBatches (a : Args) : Except String Nat :=
  let s0 : VStream := ⟨a.fileLines, 0, a.seekable⟩
  let s1 : VStream := { s0 with pos := s0.pos + scanCount (s0.lines.drop s0.pos) }
  (s1.seek 0).map VStream.pos

/-! ### Event classifiers -/

def Ev.isPutStopSign : Ev → Bool
  | .putStopSign => true
  | _ => false

def Ev.isAddMetadata : Ev → Bool
  | .addMetadata _ _ _ _ _ => true
  | _ => false

def Ev.isGetBatches : Ev → Bool
  | .getBatchesCall _ _ => true
  | _ => false

def Ev.isPrintHeadersCall : Ev → Bool
  | .printHeadersCall _ _ => true
  | _ => false

/-- The final output calls: the only events that see `silent`/`outfile`. -/
def Ev.isFinalOutput : Ev → Bool
  | .printHeadersCall _ _ => true
  | .printVariantCall _ _ _ _ => true
  | _ => false

/-- Queue, worker, sink or producer activity (everything the pipeline does
after the header is set up). -/
def Ev.isActivity : Ev → Bool
  | .mkJoinableQueue _ => true
  | .mkResultsQueue => true
  | .mkTempFile => true
  | .startWorker _ => true
  | .startPrinter _ _ => true
  | .getBatchesCall _ _ => true
  | .putStopSign => true
  | .joinVariantQueue => true
  | .putResultsStop => true
  | .joinPrinter => true
  | _ => false

/-! ### Basic lemmas about the header loop events -/

theorem headerLoopEvents_countP_eq_zero (p : Ev → Bool)
    (h1 : ∀ l, p (Ev.parseMetaData l) = false)
    (h2 : ∀ l, p (Ev.parseHeaderLine l) = false) :
    ∀ ls : List String, (headerLoopEvents ls).countP p = 0 := by
  intro ls
  induction ls with
  | nil => simp [headerLoopEvents]
  | cons l ls ih =>
    simp only [headerLoopEvents]
    by_cases hd : dblHash (pyRstrip l)
    · simp [hd, List.countP_cons, h1, ih]
    · by_cases hh : hashFirst (pyRstrip l)
      · simp [hd, hh, List.countP_cons, h2, ih]
      · simp [hd, hh]

theorem countP_map_startWorker (p : Ev → Bool) (h : ∀ i, p (Ev.startWorker i) = false)
    (l : List Nat) : (l.map Ev.startWorker).countP p = 0 := by
  induction l with
  | nil => simp
  | cons x xs ih => simp [List.countP_cons, h, ih]

theorem countP_map_printVariant (p : Ev → Bool) (o : Option String) (m : String) (s : Bool)
    (h : ∀ l, p (Ev.printVariantCall l o m s) = false)
    (ls : List String) : (ls.map (fun l => Ev.printVariantCall l o m s)).countP p = 0 := by
  induction ls with
  | nil => simp
  | cons x xs ih => simp [List.countP_cons, h, ih]

theorem countP_replicate_event (p : Ev → Bool) (e : Ev) (n : Nat) :
    (List.replicate n e).countP p = if p e then n else 0 := by
  induction n with
  | zero => simp
  | succ n ih =>
    simp [List.replicate_succ, List.countP_cons, ih]
    by_cases hp : p e <;> simp [hp]

/-! ### C3: exactly one termination marker per worker -/

/-- C3: for every worker count N (`a.processes`), after the `get_batches`
call the coordinator enqueues exactly N termination markers (`put(None)`)
on the Batch Queue — never two per worker: the trace splits as
`pre ++ [get_batches] ++ N stop signs ++ post` with no stop sign anywhere
else, and the total number of stop-sign events in the run is exactly N. -/
theorem stop_signs_one_per_worker (a : Args) (t : String) (sl : List String) (rf : Bool)
    (h : a.seekable = true) :
    ∃ pre post, (compoundRun a t sl rf).1
        = pre ++ [Ev.getBatchesCall a.vep true]
          ++ List.replicate a.processes Ev.putStopSign ++ post
      ∧ pre.countP Ev.isPutStopSign = 0
      ∧ post.countP Ev.isPutStopSign = 0
      ∧ (compoundRun a t sl rf).1.countP Ev.isPutStopSign = a.processes := by
  refine ⟨headerLoopEvents a.fileLines
      ++ [Ev.seekStream 0,
          Ev.addMetadata "info" "CorrectedRankScore" "1" "Integer" correctedRankDescription,
          Ev.mkJoinableQueue 1000, Ev.mkResultsQueue, Ev.mkTempFile]
      ++ (List.range a.processes).map Ev.startWorker
      ++ [Ev.startPrinter "chromosome" t],
    [Ev.joinVariantQueue, Ev.putResultsStop, Ev.joinPrinter,
        Ev.sortVariantsCall "chromosome", Ev.printHeadersCall a.outfile a.silent]
      ++ sl.map (fun l => Ev.printVariantCall l a.outfile "modified" a.silent)
      ++ (if rf then [] else [Ev.removeTempFile]), ?_, ?_, ?_, ?_⟩
  · simp [compoundRun, h]
  · simp [List.countP_append,
      headerLoopEvents_countP_eq_zero Ev.isPutStopSign (fun _ => rfl) (fun _ => rfl),
      countP_map_startWorker Ev.isPutStopSign (fun _ => rfl), List.countP_cons,
      Ev.isPutStopSign]
  · cases rf <;>
      simp [List.countP_append, List.countP_cons,
        countP_map_printVariant Ev.isPutStopSign a.outfile "modified" a.silent (fun _ => rfl),
        Ev.isPutStopSign]
  · cases rf <;>
      simp [compoundRun, h, List.countP_append, List.countP_cons,
        headerLoopEvents_countP_eq_zero Ev.isPutStopSign (fun _ => rfl) (fun _ => rfl),
        countP_map_startWorker Ev.isPutStopSign (fun _ => rfl),
        countP_map_printVariant Ev.isPutStopSign a.outfile "modified" a.silent (fun _ => rfl),
        countP_replicate_event, Ev.isPutStopSign]

/-- C3 witness: concrete run with 3 workers. -/
theorem stop_signs_one_per_worker_check :
    (⟨["#h", "1\t1"], true, false, none, 3, false⟩ : Args).seekable = true ∧
    ∃ pre post,
      (compoundRun ⟨["#h", "1\t1"], true, false, none, 3, false⟩ "tmp" ["x"] false).1
        = pre ++ [Ev.getBatchesCall false true] ++ List.replicate 3 Ev.putStopSign ++ post
      ∧ pre.countP Ev.isPutStopSign = 0
      ∧ post.countP Ev.isPutStopSign = 0
      ∧ (compoundRun ⟨["#h", "1\t1"], true, false, none, 3, false⟩ "tmp" ["x"] false).1.countP
          Ev.isPutStopSign = 3 :=
  ⟨rfl, stop_signs_one_per_worker ⟨["#h", "1\t1"], true, false, none, 3, false⟩ "tmp" ["x"] false rfl⟩

/-! ### C4: position of the stream handed to `get_batches` -/

/-- C4 counterexample: on a file whose first data record is at index 2
(two header lines), the stream handed to `get_batches` is at position 0 —
line 78 performs `variant_file.seek(0)` — not past the header at index 2.
The claim "the producer's input starts at the first data record" is false. -/
theorem producer_stream_not_past_header :
    streamPosAtGetBatches
        ⟨["##fileformat=VCFv4.2", "#CHROM", "1\t100\t.\tA\tT\t.\t.\t."],
          true, false, none, 4, false⟩ = .ok 0
    ∧ firstDataIndex ["##fileformat=VCFv4.2", "#CHROM", "1\t100\t.\tA\tT\t.\t.\t."] = 2
    ∧ (Except.ok 0 : Except String Nat) ≠ .ok 2 :=
  ⟨rfl, by decide, by intro hcontra; simp at hcontra⟩

/-- C4 amended: the stream handed to the Batch Producer is rewound to the
beginning of the file (`seek(0)`, position 0, header lines included) for
every seekable input; the batching collaborator must skip the header lines
itself. -/
theorem producer_stream_rewound_to_start (a : Args) (h : a.seekable = true) :
    streamPosAtGetBatches a = .ok 0 := by
  simp [streamPosAtGetBatches, VStream.seek, h, Except.map]

/-- C4 amended witness: evaluated on a concrete two-header-line file. -/
theorem producer_stream_rewound_to_start_check :
    (⟨["##a", "#CHROM", "1\t100"], true, false, none, 4, false⟩ : Args).seekable = true ∧
    streamPosAtGetBatches ⟨["##a", "#CHROM", "1\t100"], true, false, none, 4, false⟩ = .ok 0 :=
  ⟨rfl, producer_stream_rewound_to_start ⟨["##a", "#CHROM", "1\t100"], true, false, none, 4, false⟩ rfl⟩

/-! ### C5: the header is mutated exactly once, before any activity -/

/-- C5: the coordinator calls `add_metadata` exactly once — registering the
INFO field `CorrectedRankScore` with entry type `Integer`, annotation
number 1 and the fixed description — and this single call precedes every
queue-creation, worker, sink and producer event, for every worker count. -/
theorem add_metadata_once_before_activity (a : Args) (t : String) (sl : List String)
    (rf : Bool) (h : a.seekable = true) :
    ∃ pre post, (compoundRun a t sl rf).1
        = pre ++ [Ev.addMetadata "info" "CorrectedRankScore" "1" "Integer"
            correctedRankDescription] ++ post
      ∧ pre.countP Ev.isAddMetadata = 0
      ∧ post.countP Ev.isAddMetadata = 0
      ∧ pre.countP Ev.isActivity = 0
      ∧ (compoundRun a t sl rf).1.countP Ev.isAddMetadata = 1 := by
  refine ⟨headerLoopEvents a.fileLines ++ [Ev.seekStream 0],
    [Ev.mkJoinableQueue 1000, Ev.mkResultsQueue, Ev.mkTempFile]
      ++ (List.range a.processes).map Ev.startWorker
      ++ [Ev.startPrinter "chromosome" t, Ev.getBatchesCall a.vep true]
      ++ List.replicate a.processes Ev.putStopSign
      ++ [Ev.joinVariantQueue, Ev.putResultsStop, Ev.joinPrinter,
          Ev.sortVariantsCall "chromosome", Ev.printHeadersCall a.outfile a.silent]
      ++ sl.map (fun l => Ev.printVariantCall l a.outfile "modified" a.silent)
      ++ (if rf then [] else [Ev.removeTempFile]), ?_, ?_, ?_, ?_, ?_⟩
  · simp [compoundRun, h]
  · simp [List.countP_append, List.countP_cons,
      headerLoopEvents_countP_eq_zero Ev.isAddMetadata (fun _ => rfl) (fun _ => rfl),
      Ev.isAddMetadata]
  · cases rf <;>
      simp [List.countP_append, List.countP_cons,
        countP_map_startWorker Ev.isAddMetadata (fun _ => rfl),
        countP_map_printVariant Ev.isAddMetadata a.outfile "modified" a.silent (fun _ => rfl),
        countP_replicate_event, Ev.isAddMetadata]
  · simp [List.countP_append, List.countP_cons,
      headerLoopEvents_countP_eq_zero Ev.isActivity (fun _ => rfl) (fun _ => rfl),
      Ev.isActivity]
  · cases rf <;>
      simp [compoundRun, h, List.countP_append, List.countP_cons,
        headerLoopEvents_countP_eq_zero Ev.isAddMetadata (fun _ => rfl) (fun _ => rfl),
        countP_map_startWorker Ev.isAddMetadata (fun _ => rfl),
        countP_map_printVariant Ev.isAddMetadata a.outfile "modified" a.silent (fun _ => rfl),
        countP_replicate_event, Ev.isAddMetadata]

/-- C5 witness: concrete run with 4 workers. -/
theorem add_metadata_once_before_activity_check :
    (⟨["#h", "1\t1"], true, true, some "out.vcf", 4, true⟩ : Args).seekable = true ∧
    ∃ pre post,
      (compoundRun ⟨["#h", "1\t1"], true, true, some "out.vcf", 4, true⟩ "tmp" [] false).1
        = pre ++ [Ev.addMetadata "info" "CorrectedRankScore" "1" "Integer"
            correctedRankDescription] ++ post
      ∧ pre.countP Ev.isAddMetadata = 0
      ∧ post.countP Ev.isAddMetadata = 0
      ∧ pre.countP Ev.isActivity = 0
      ∧ (compoundRun ⟨["#h", "1\t1"], true, true, some "out.vcf", 4, true⟩ "tmp" [] false).1.countP
          Ev.isAddMetadata = 1 :=
  ⟨rfl, add_metadata_once_before_activity
    ⟨["#h", "1\t1"], true, true, some "out.vcf", 4, true⟩ "tmp" [] false rfl⟩

/-! ### C7: order of the re-linearization steps -/

/-- C7: after the Sink's join returns, the coordinator performs, in this
exact order: `sort_variants` on the scratch file in chromosome mode, one
`print_headers` call with the run's `silent` flag and `outfile`, then one
`print_variant` per sorted line, in file order, with the same flag and
path; `print_headers` appears exactly once in the whole run. -/
theorem relinearization_order (a : Args) (t : String) (sl : List String) (rf : Bool)
    (h : a.seekable = true) :
    ∃ pre, (compoundRun a t sl rf).1
        = pre ++ [Ev.joinPrinter, Ev.sortVariantsCall "chromosome",
            Ev.printHeadersCall a.outfile a.silent]
          ++ sl.map (fun l => Ev.printVariantCall l a.outfile "modified" a.silent)
          ++ (if rf then [] else [Ev.removeTempFile])
      ∧ (compoundRun a t sl rf).1.countP Ev.isPrintHeadersCall = 1 := by
  refine ⟨headerLoopEvents a.fileLines
      ++ [Ev.seekStream 0,
          Ev.addMetadata "info" "CorrectedRankScore" "1" "Integer" correctedRankDescription,
          Ev.mkJoinableQueue 1000, Ev.mkResultsQueue, Ev.mkTempFile]
      ++ (List.range a.processes).map Ev.startWorker
      ++ [Ev.startPrinter "chromosome" t, Ev.getBatchesCall a.vep true]
      ++ List.replicate a.processes Ev.putStopSign
      ++ [Ev.joinVariantQueue, Ev.putResultsStop], ?_, ?_⟩
  · simp [compoundRun, h]
  · cases rf <;>
      simp [compoundRun, h, List.countP_append, List.countP_cons,
        headerLoopEvents_countP_eq_zero Ev.isPrintHeadersCall (fun _ => rfl) (fun _ => rfl),
        countP_map_startWorker Ev.isPrintHeadersCall (fun _ => rfl),
        countP_map_printVariant Ev.isPrintHeadersCall a.outfile "modified" a.silent (fun _ => rfl),
        countP_replicate_event, Ev.isPrintHeadersCall]

/-- C7 witness: concrete run, two sorted lines. -/
theorem relinearization_order_check :
    (⟨["#h", "2\t5", "1\t9"], true, false, some "o.vcf", 2, false⟩ : Args).seekable = true ∧
    ∃ pre,
      (compoundRun ⟨["#h", "2\t5", "1\t9"], true, false, some "o.vcf", 2, false⟩
          "tmp" ["1\t9", "2\t5"] false).1
        = pre ++ [Ev.joinPrinter, Ev.sortVariantsCall "chromosome",
            Ev.printHeadersCall (some "o.vcf") false]
          ++ (["1\t9", "2\t5"] : List String).map
              (fun l => Ev.printVariantCall l (some "o.vcf") "modified" false)
          ++ (if false then [] else [Ev.removeTempFile])
      ∧ (compoundRun ⟨["#h", "2\t5", "1\t9"], true, false, some "o.vcf", 2, false⟩
          "tmp" ["1\t9", "2\t5"] false).1.countP Ev.isPrintHeadersCall = 1 :=
  ⟨rfl, relinearization_order ⟨["#h", "2\t5", "1\t9"], true, false, some "o.vcf", 2, false⟩
    "tmp" ["1\t9", "2\t5"] false rfl⟩

/-! ### C2: deleting the scratch store is unguarded, hence fatal on failure -/

/-- C2 counterexample: a concrete run in which `os.remove` fails does not
complete successfully — the coordinator has no try/except around line 176,
so the exception propagates and the outcome is an error, contradicting
"deletion failure is logged and the run still completes successfully". -/
theorem temp_delete_failure_fatal_example :
    (compoundRun ⟨["#h", "1\t1"], true, false, none, 1, false⟩ "tmp" ["1\t1"] true).2
        = some RunErr.removeFailed
    ∧ (compoundRun ⟨["#h", "1\t1"], true, false, none, 1, false⟩ "tmp" ["1\t1"] true).2 ≠ none :=
  ⟨rfl, by decide⟩

/-- C2 amended: after the re-linearizer has streamed the sorted records the
coordinator calls `os.remove` on the Scratch Store; the call is unguarded,
so when deletion fails the run aborts with an error (deletion failure is
fatal), and when it succeeds the trace ends with the removal and the run
completes successfully. -/
theorem temp_delete_after_stream_and_fatal_on_failure (a : Args) (t : String)
    (sl : List String) (rf : Bool) (h : a.seekable = true) :
    (compoundRun a t sl rf).2 = (if rf then some RunErr.removeFailed else none)
    ∧ ∃ pre, (compoundRun a t sl rf).1
        = pre ++ sl.map (fun l => Ev.printVariantCall l a.outfile "modified" a.silent)
          ++ (if rf then [] else [Ev.removeTempFile]) := by
  constructor
  · simp [compoundRun, h]
  · refine ⟨headerLoopEvents a.fileLines
      ++ [Ev.seekStream 0,
          Ev.addMetadata "info" "CorrectedRankScore" "1" "Integer" correctedRankDescription,
          Ev.mkJoinableQueue 1000, Ev.mkResultsQueue, Ev.mkTempFile]
      ++ (List.range a.processes).map Ev.startWorker
      ++ [Ev.startPrinter "chromosome" t, Ev.getBatchesCall a.vep true]
      ++ List.replicate a.processes Ev.putStopSign
      ++ [Ev.joinVariantQueue, Ev.putResultsStop, Ev.joinPrinter,
          Ev.sortVariantsCall "chromosome", Ev.printHeadersCall a.outfile a.silent], ?_⟩
    simp [compoundRun, h]

/-- C2 amended witness: both the failing and the succeeding removal, on a
concrete run. -/
theorem temp_delete_after_stream_check :
    (⟨["#h", "1\t1"], true, false, none, 1, false⟩ : Args).seekable = true ∧
    ((compoundRun ⟨["#h", "1\t1"], true, false, none, 1, false⟩ "tmp" ["1\t1"] true).2
        = (if true then some RunErr.removeFailed else none)
      ∧ ∃ pre, (compoundRun ⟨["#h", "1\t1"], true, false, none, 1, false⟩ "tmp" ["1\t1"] true).1
          = pre ++ (["1\t1"] : List String).map
              (fun l => Ev.printVariantCall l none "modified" false)
            ++ (if true then [] else [Ev.removeTempFile])) :=
  ⟨rfl, temp_delete_after_stream_and_fatal_on_failure
    ⟨["#h", "1\t1"], true, false, none, 1, false⟩ "tmp" ["1\t1"] true rfl⟩

/-! ### C9: `silent`/`outfile` reach only the final printing calls -/

theorem headerLoopEvents_filter_nonoutput :
    ∀ ls : List String,
      (headerLoopEvents ls).filter (fun e => !e.isFinalOutput) = headerLoopEvents ls := by
  intro ls
  induction ls with
  | nil => simp [headerLoopEvents]
  | cons l ls ih =>
    simp only [headerLoopEvents]
    by_cases hd : dblHash (pyRstrip l)
    · rw [if_pos hd, List.filter_cons_of_pos (by rfl), ih]
    · by_cases hh : hashFirst (pyRstrip l)
      · rw [if_neg hd, if_pos hh, List.filter_cons_of_pos (by rfl), ih]
      · rw [if_neg hd, if_neg hh]
        rfl

theorem filter_nonoutput_map_startWorker (l : List Nat) :
    ((l.map Ev.startWorker).filter (fun e => !e.isFinalOutput)) = l.map Ev.startWorker := by
  induction l with
  | nil => simp
  | cons x xs ih => simp [List.filter_cons, Ev.isFinalOutput, ih]

theorem filter_nonoutput_map_printVariant (o : Option String) (m : String) (s : Bool)
    (ls : List String) :
    ((ls.map (fun l => Ev.printVariantCall l o m s)).filter (fun e => !e.isFinalOutput)) = [] := by
  induction ls with
  | nil => simp
  | cons x xs ih => simp [List.filter_cons, Ev.isFinalOutput, ih]

theorem filter_nonoutput_replicate_stop (n : Nat) :
    ((List.replicate n Ev.putStopSign).filter (fun e => !e.isFinalOutput))
      = List.replicate n Ev.putStopSign := by
  induction n with
  | zero => simp
  | succ n ih => simp [List.replicate_succ, List.filter_cons, Ev.isFinalOutput, ih]

/-- The non-final-output part of a run's trace — everything that determines
the Scratch Store's contents — spelled out; it mentions neither `silent`
nor `outfile`. -/
theorem compoundRun_filter_nonoutput (a : Args) (t : String) (sl : List String) (rf : Bool)
    (h : a.seekable = true) :
    (compoundRun a t sl rf).1.filter (fun e => !e.isFinalOutput)
      = headerLoopEvents a.fileLines
        ++ [Ev.seekStream 0,
            Ev.addMetadata "info" "CorrectedRankScore" "1" "Integer" correctedRankDescription,
            Ev.mkJoinableQueue 1000, Ev.mkResultsQueue, Ev.mkTempFile]
        ++ (List.range a.processes).map Ev.startWorker
        ++ [Ev.startPrinter "chromosome" t, Ev.getBatchesCall a.vep true]
        ++ List.replicate a.processes Ev.putStopSign
        ++ [Ev.joinVariantQueue, Ev.putResultsStop, Ev.joinPrinter,
            Ev.sortVariantsCall "chromosome"]
        ++ (if rf then [] else [Ev.removeTempFile]) := by
  have h1 := headerLoopEvents_filter_nonoutput a.fileLines
  have h2 := filter_nonoutput_map_startWorker (List.range a.processes)
  have h3 := filter_nonoutput_map_printVariant a.outfile "modified" a.silent sl
  have h4 := filter_nonoutput_replicate_stop a.processes
  cases rf <;>
    · simp only [compoundRun, h, if_true, Bool.true_eq, ite_true, List.filter_append]
      rw [h1, h2, h3, h4]
      simp [List.filter_cons, Ev.isFinalOutput]

/-- C9: the `silent` flag and the `outfile` option are passed only to the
final `print_headers`/`print_variant` calls — two runs that differ only in
these two arguments perform identical traces outside the final-output
events (in particular the `VariantPrinter` writes to the same temp path
with the same mode, and all queue/producer/worker events coincide, so the
Scratch Store contents coincide) and have the same outcome. -/
theorem silent_outfile_only_final_output (fl : List String) (sk : Bool) (p : Nat) (v : Bool)
    (s1 s2 : Bool) (o1 o2 : Option String) (t : String) (sl : List String) (rf : Bool) :
    (compoundRun ⟨fl, sk, s1, o1, p, v⟩ t sl rf).1.filter (fun e => !e.isFinalOutput)
      = (compoundRun ⟨fl, sk, s2, o2, p, v⟩ t sl rf).1.filter (fun e => !e.isFinalOutput)
    ∧ (compoundRun ⟨fl, sk, s1, o1, p, v⟩ t sl rf).2
      = (compoundRun ⟨fl, sk, s2, o2, p, v⟩ t sl rf).2 := by
  cases sk with
  | false => constructor <;> simp [compoundRun]
  | true =>
    constructor
    · rw [compoundRun_filter_nonoutput ⟨fl, true, s1, o1, p, v⟩ t sl rf rfl,
        compoundRun_filter_nonoutput ⟨fl, true, s2, o2, p, v⟩ t sl rf rfl]
    · simp [compoundRun]

/-! ### C10: non-seekable input fails at `seek(0)` before any batching -/

/-- C10: the CLI accepts `-` (standard input), but the coordinator executes
`variant_file.seek(0)` after reading the header; on a non-seekable stream
(a pipe on standard input) the run aborts with the seek error and the trace
contains no `get_batches` call and no queue/worker/sink/producer activity
at all — it fails before any batch is produced. -/
theorem nonseekable_fails_before_batching (a : Args) (t : String) (sl : List String)
    (rf : Bool) (h : a.seekable = false) :
    (compoundRun a t sl rf).2 = some RunErr.seekUnsupported
    ∧ (compoundRun a t sl rf).1.countP Ev.isGetBatches = 0
    ∧ (compoundRun a t sl rf).1.countP Ev.isActivity = 0
    ∧ streamPosAtGetBatches a = .error "UnsupportedOperation" := by
  refine ⟨by simp [compoundRun, h], ?_, ?_, ?_⟩
  · simp [compoundRun, h,
      headerLoopEvents_countP_eq_zero Ev.isGetBatches (fun _ => rfl) (fun _ => rfl)]
  · simp [compoundRun, h,
      headerLoopEvents_countP_eq_zero Ev.isActivity (fun _ => rfl) (fun _ => rfl)]
  · simp [streamPosAtGetBatches, VStream.seek, h, Except.map]

/-- C10 witness: a concrete non-seekable (piped standard input) run. -/
theorem nonseekable_fails_before_batching_check :
    (⟨["##a", "#h", "1\t1"], false, false, none, 4, false⟩ : Args).seekable = false ∧
    ((compoundRun ⟨["##a", "#h", "1\t1"], false, false, none, 4, false⟩ "tmp" [] false).2
        = some RunErr.seekUnsupported
      ∧ (compoundRun ⟨["##a", "#h", "1\t1"], false, false, none, 4, false⟩ "tmp" [] false).1.countP
          Ev.isGetBatches = 0
      ∧ (compoundRun ⟨["##a", "#h", "1\t1"], false, false, none, 4, false⟩ "tmp" [] false).1.countP
          Ev.isActivity = 0
      ∧ streamPosAtGetBatches ⟨["##a", "#h", "1\t1"], false, false, none, 4, false⟩
          = .error "UnsupportedOperation") :=
  ⟨rfl, nonseekable_fails_before_batching
    ⟨["##a", "#h", "1\t1"], false, false, none, 4, false⟩ "tmp" [] false rfl⟩

/-! ### The concurrent pipeline as a transition system

For the claims about queue interleavings (C1, C6, C8) we model the running
pipeline: the coordinator (this file's source, executing `get_batches`
synchronously, then the stop signs, `join`, `results.put(None)`,
`variant_printer.join()`), the `JoinableQueue` with `maxsize=1000`
(`put` blocks when 1000 undelivered items are buffered; `put` increments
and `task_done` decrements the unfinished-task counter; `join` returns
when the counter is zero), the unbounded Manager results queue, N scorer
workers and the printer process.

Modelled from the spec: the worker loop of `CompoundScorer` (spec §4.3 —
dequeue; exit after acknowledging a termination marker; otherwise score,
push the result, then acknowledge) and the `VariantPrinter` loop (spec
§4.4 — drain the results queue into the scratch store until the terminal
marker), whose sources are not under `src/`.  Workers are interchangeable,
so the state keeps one counter per worker-loop program point. -/

/-- An item of the Batch Queue: a real batch or the `None` stop sign. -/
inductive QItem where
  | batch
  | stopSign
deriving DecidableEq, Repr

def QItem.isStop : QItem → Bool
  | .stopSign => true
  | .batch => false

/-- An item of the Results Queue: a scored-batch result or the terminal
`None` marker. -/
inductive RItem where
  | result
  | stopSign
deriving DecidableEq, Repr

def RItem.isStop : RItem → Bool
  | .stopSign => true
  | .result => false

def RItem.isResult : RItem → Bool
  | .result => true
  | .stopSign => false

/-- Program point of the coordinator. -/
inductive CPhase where
  | producing (k : Nat)   -- inside `get_batches`, `k` batches still to enqueue
  | stopping (k : Nat)    -- lines 154–155, `k` stop signs still to put
  | joiningQueue          -- blocked in `variant_queue.join()` (line 157)
  | sendingStop           -- about to execute `results.put(None)` (line 158)
  | joiningPrinter        -- blocked in `variant_printer.join()` (line 159)
  | relinearizing         -- past line 159
deriving DecidableEq, Repr

/-- Program point of the printer process (spec §4.4 Sink). -/
inductive PPhase where
  | running
  | finished
deriving DecidableEq, Repr

/-- Global state of the running pipeline.  Workers are symmetric, so we
count how many sit at each point of the worker loop: `idleW` blocked in
`get`, `scoringW` scoring a batch, `pushedW` having pushed its result but
not yet called `task_done`, `gotStopW` having dequeued a stop sign but not
yet acknowledged it, `exitedW` exited. -/
structure Sys where
  nWorkers : Nat
  coord : CPhase
  idleW : Nat
  scoringW : Nat
  pushedW : Nat
  gotStopW : Nat
  exitedW : Nat
  bq : List QItem      -- batch queue buffer (enqueued, not yet dequeued)
  unfinished : Nat     -- JoinableQueue unfinished-task counter
  rq : List RItem      -- results queue buffer
  printer : PPhase
  scratch : Nat        -- records appended to the scratch store
deriving DecidableEq, Repr

/-- One interleaving step of the pipeline. `put` on the batch queue is
enabled only below the 1000-item bound (`JoinableQueue(maxsize=1000)`). -/
inductive Step : Sys → Sys → Prop where
  | produceBatch (s : Sys) (k : Nat) :
      s.coord = .producing (k + 1) → s.bq.length < 1000 →
      Step s { s with
                coord := .producing k
                bq := s.bq ++ [QItem.batch]
                unfinished := s.unfinished + 1 }
  | produceDone (s : Sys) :
      s.coord = .producing 0 →
      Step s { s with coord := .stopping s.nWorkers }
  | putStop (s : Sys) (k : Nat) :
      s.coord = .stopping (k + 1) → s.bq.length < 1000 →
      Step s { s with
                coord := .stopping k
                bq := s.bq ++ [QItem.stopSign]
                unfinished := s.unfinished + 1 }
  | stopsDone (s : Sys) :
      s.coord = .stopping 0 →
      Step s { s with coord := .joiningQueue }
  | joinReturns (s : Sys) :
      s.coord = .joiningQueue → s.unfinished = 0 →
      Step s { s with coord := .sendingStop }
  | sendResultsStop (s : Sys) :
      s.coord = .sendingStop →
      Step s { s with
                coord := .joiningPrinter
                rq := s.rq ++ [RItem.stopSign] }
  | printerJoinReturns (s : Sys) :
      s.coord = .joiningPrinter → s.printer = .finished →
      Step s { s with coord := .relinearizing }
  | workerGetBatch (s : Sys) (rest : List QItem) :
      0 < s.idleW → s.bq = QItem.batch :: rest →
      Step s { s with
                idleW := s.idleW - 1
                scoringW := s.scoringW + 1
                bq := rest }
  | workerGetStop (s : Sys) (rest : List QItem) :
      0 < s.idleW → s.bq = QItem.stopSign :: rest →
      Step s { s with
                idleW := s.idleW - 1
                gotStopW := s.gotStopW + 1
                bq := rest }
  | workerPush (s : Sys) :
      0 < s.scoringW →
      Step s { s with
                scoringW := s.scoringW - 1
                pushedW := s.pushedW + 1
                rq := s.rq ++ [RItem.result] }
  | workerAck (s : Sys) :
      0 < s.pushedW →
      Step s { s with
                pushedW := s.pushedW - 1
                idleW := s.idleW + 1
                unfinished := s.unfinished - 1 }
  | workerAckStop (s : Sys) :
      0 < s.gotStopW →
      Step s { s with
                gotStopW := s.gotStopW - 1
                exitedW := s.exitedW + 1
                unfinished := s.unfinished - 1 }
  | printerWrite (s : Sys) (rest : List RItem) :
      s.printer = .running → s.rq = RItem.result :: rest →
      Step s { s with
                rq := rest
                scratch := s.scratch + 1 }
  | printerStop (s : Sys) (rest : List RItem) :
      s.printer = .running → s.rq = RItem.stopSign :: rest →
      Step s { s with
                rq := rest
                printer := .finished }

/-- The pipeline as the coordinator sets it up: `n` idle workers just
started, the printer running, empty queues, `get_batches` about to
enqueue `k` batches. -/
def startSys (n k : Nat) : Sys :=
  ⟨n, .producing k, n, 0, 0, 0, 0, [], 0, [], .running, 0⟩

/-- States the pipeline can reach from the start. -/
def Reachable (n k : Nat) (s : Sys) : Prop :=
  Relation.ReflTransGen Step (startSys n k) s

/-- The coordinator is past the `variant_queue.join()` of line 157. -/
def CPhase.pastJoin : CPhase → Bool
  | .sendingStop => true
  | .joiningPrinter => true
  | .relinearizing => true
  | _ => false

/-- The coordinator has executed `results.put(None)` of line 158. -/
def CPhase.pastResultsStop : CPhase → Bool
  | .joiningPrinter => true
  | .relinearizing => true
  | _ => false

/-- How many stop signs the coordinator has put on the batch queue so far
at each program point. -/
def stopsPut : CPhase → Nat → Nat
  | .producing _, _ => 0
  | .stopping k, n => n - k
  | _, n => n

/-- The inductive invariant of the pipeline. -/
structure Inv (s : Sys) : Prop where
  total : s.idleW + s.scoringW + s.pushedW + s.gotStopW + s.exitedW = s.nWorkers
  cap : s.bq.length ≤ 1000
  unfin : s.unfinished = s.bq.length + s.scoringW + s.pushedW + s.gotStopW
  stopsLe : ∀ k, s.coord = .stopping k → k ≤ s.nWorkers
  stops : stopsPut s.coord s.nWorkers
          = s.bq.countP QItem.isStop + s.gotStopW + s.exitedW
  shape : ∃ a b, s.bq = List.replicate a QItem.batch ++ List.replicate b QItem.stopSign
          ∧ (∀ j, s.coord = .producing j → b = 0)
  pastJoin : s.coord.pastJoin = true →
          s.idleW = 0 ∧ s.scoringW = 0 ∧ s.pushedW = 0 ∧ s.gotStopW = 0
  rqStop : s.rq.countP RItem.isStop + (if s.printer = .finished then 1 else 0)
          = if s.coord.pastResultsStop then 1 else 0

theorem inv_start (n k : Nat) : Inv (startSys n k) where
  total := by simp [startSys]
  cap := by simp [startSys]
  unfin := by simp [startSys]
  stopsLe := by intro j hj; simp [startSys] at hj
  stops := by simp [startSys, stopsPut]
  shape := ⟨0, 0, by simp [startSys], fun j _ => rfl⟩
  pastJoin := by intro h; simp [startSys, CPhase.pastJoin] at h
  rqStop := by simp [startSys, CPhase.pastResultsStop]

theorem shape_head_batch {a b : Nat} {rest : List QItem}
    (h : QItem.batch :: rest
        = List.replicate a QItem.batch ++ List.replicate b QItem.stopSign) :
    ∃ a1, a = a1 + 1
      ∧ rest = List.replicate a1 QItem.batch ++ List.replicate b QItem.stopSign := by
  cases a with
  | zero =>
    cases b with
    | zero => simp at h
    | succ b1 => simp [List.replicate_succ] at h
  | succ a1 =>
    rw [List.replicate_succ, List.cons_append] at h
    exact ⟨a1, rfl, by injection h⟩

theorem shape_head_stop {a b : Nat} {rest : List QItem}
    (h : QItem.stopSign :: rest
        = List.replicate a QItem.batch ++ List.replicate b QItem.stopSign) :
    ∃ b1, a = 0 ∧ b = b1 + 1 ∧ rest = List.replicate b1 QItem.stopSign := by
  cases a with
  | succ a1 => simp [List.replicate_succ] at h
  | zero =>
    cases b with
    | zero => simp at h
    | succ b1 =>
      simp only [List.replicate_zero, List.nil_append, List.replicate_succ] at h
      exact ⟨b1, rfl, rfl, by injection h⟩

/-- Every pipeline step preserves the invariant. -/
theorem inv_step {s1 s2 : Sys} (hinv : Inv s1) (hst : Step s1 s2) : Inv s2 := by
  obtain ⟨htot, hcap, hunf, hstle, hsto, ⟨a, b, hshape, hprod⟩, hpj, hrq⟩ := hinv
  cases hst with
  | produceBatch k hc hlen =>
    refine ⟨htot, ?_, ?_, ?_, ?_, ?_, ?_, ?_⟩
    all_goals try dsimp only
    · simp only [List.length_append, List.length_cons, List.length_nil]; omega
    · simp only [List.length_append, List.length_cons, List.length_nil]; omega
    · intro j hj; simp at hj
    · rw [hc] at hsto; simp only [stopsPut] at hsto ⊢
      simp [List.countP_append, List.countP_cons, List.countP_nil, QItem.isStop]
      omega
    · have hb : b = 0 := hprod (k + 1) hc
      refine ⟨a + 1, 0, ?_, fun j _ => rfl⟩
      rw [hshape, hb]
      simp [List.replicate_succ']
    · intro hx; simp [CPhase.pastJoin] at hx
    · rw [hc] at hrq; simpa [CPhase.pastResultsStop] using hrq
  | produceDone hc =>
    refine ⟨htot, hcap, hunf, ?_, ?_, ?_, ?_, ?_⟩
    all_goals try dsimp only
    · intro j hj; simp only [CPhase.stopping.injEq] at hj; omega
    · rw [hc] at hsto; simp only [stopsPut] at hsto ⊢; omega
    · exact ⟨a, b, hshape, by intro j hj; simp at hj⟩
    · intro hx; simp [CPhase.pastJoin] at hx
    · rw [hc] at hrq; simpa [CPhase.pastResultsStop] using hrq
  | putStop k hc hlen =>
    have hkn : k + 1 ≤ s1.nWorkers := hstle (k + 1) hc
    refine ⟨htot, ?_, ?_, ?_, ?_, ?_, ?_, ?_⟩
    all_goals try dsimp only
    · simp only [List.length_append, List.length_cons, List.length_nil]; omega
    · simp only [List.length_append, List.length_cons, List.length_nil]; omega
    · intro j hj; simp only [CPhase.stopping.injEq] at hj; omega
    · rw [hc] at hsto; simp only [stopsPut] at hsto ⊢
      simp [List.countP_append, List.countP_cons, List.countP_nil, QItem.isStop]
      omega
    · refine ⟨a, b + 1, ?_, by intro j hj; simp at hj⟩
      rw [hshape]
      simp [List.replicate_succ', List.append_assoc]
    · intro hx; simp [CPhase.pastJoin] at hx
    · rw [hc] at hrq; simpa [CPhase.pastResultsStop] using hrq
  | stopsDone hc =>
    refine ⟨htot, hcap, hunf, ?_, ?_, ?_, ?_, ?_⟩
    all_goals try dsimp only
    · intro j hj; simp at hj
    · rw [hc] at hsto; simp only [stopsPut] at hsto ⊢; omega
    · exact ⟨a, b, hshape, by intro j hj; simp at hj⟩
    · intro hx; simp [CPhase.pastJoin] at hx
    · rw [hc] at hrq; simpa [CPhase.pastResultsStop] using hrq
  | joinReturns hc hz =>
    have hle := List.countP_le_length (p := QItem.isStop) (l := s1.bq)
    rw [hc] at hsto; simp only [stopsPut] at hsto
    refine ⟨htot, hcap, hunf, ?_, ?_, ?_, ?_, ?_⟩
    all_goals try dsimp only
    · intro j hj; simp at hj
    · simp only [stopsPut]; omega
    · exact ⟨a, b, hshape, by intro j hj; simp at hj⟩
    · intro _; omega
    · rw [hc] at hrq; simpa [CPhase.pastResultsStop] using hrq
  | sendResultsStop hc =>
    have hcounts := hpj (by rw [hc]; rfl)
    rw [hc] at hsto hrq
    refine ⟨htot, hcap, hunf, ?_, ?_, ?_, ?_, ?_⟩
    all_goals try dsimp only
    · intro j hj; simp at hj
    · simpa [stopsPut] using hsto
    · exact ⟨a, b, hshape, by intro j hj; simp at hj⟩
    · intro _; exact hcounts
    · have hx : s1.rq.countP RItem.isStop + (if s1.printer = PPhase.finished then 1 else 0)
          = 0 := by simpa [CPhase.pastResultsStop] using hrq
      simp [CPhase.pastResultsStop, List.countP_append, List.countP_cons, RItem.isStop]
      omega
  | printerJoinReturns hc hp =>
    have hcounts := hpj (by rw [hc]; rfl)
    rw [hc] at hsto hrq
    refine ⟨htot, hcap, hunf, ?_, ?_, ?_, ?_, ?_⟩
    all_goals try dsimp only
    · intro j hj; simp at hj
    · simpa [stopsPut] using hsto
    · exact ⟨a, b, hshape, by intro j hj; simp at hj⟩
    · intro _; exact hcounts
    · simpa [CPhase.pastResultsStop] using hrq
  | workerGetBatch rest hidle hbq =>
    rw [hbq] at hshape
    obtain ⟨a1, ha, hrest⟩ := shape_head_batch hshape
    have hlen : s1.bq.length = rest.length + 1 := by rw [hbq]; rfl
    have hcnt : s1.bq.countP QItem.isStop = rest.countP QItem.isStop := by
      rw [hbq]; simp [List.countP_cons, QItem.isStop]
    refine ⟨?_, ?_, ?_, ?_, ?_, ?_, ?_, ?_⟩
    all_goals try dsimp only
    · omega
    · omega
    · omega
    · intro j hj; exact hstle j hj
    · rw [hcnt] at hsto; simpa [stopsPut] using hsto
    · exact ⟨a1, b, hrest, fun j hj => hprod j hj⟩
    · intro hx
      have := hpj hx
      omega
    · exact hrq
  | workerGetStop rest hidle hbq =>
    rw [hbq] at hshape
    obtain ⟨b1, ha, hb, hrest⟩ := shape_head_stop hshape
    have hlen : s1.bq.length = rest.length + 1 := by rw [hbq]; rfl
    have hcnt : s1.bq.countP QItem.isStop = rest.countP QItem.isStop + 1 := by
      rw [hbq]; simp [List.countP_cons, QItem.isStop]
    refine ⟨?_, ?_, ?_, ?_, ?_, ?_, ?_, ?_⟩
    all_goals try dsimp only
    · omega
    · omega
    · omega
    · intro j hj; exact hstle j hj
    · rw [hcnt] at hsto; simp only [stopsPut] at hsto ⊢; omega
    · refine ⟨0, b1, by simpa using hrest, ?_⟩
      intro j hj
      have := hprod j hj
      omega
    · intro hx
      have := hpj hx
      omega
    · exact hrq
  | workerPush hsc =>
    refine ⟨?_, hcap, ?_, ?_, ?_, ?_, ?_, ?_⟩
    all_goals try dsimp only
    · omega
    · omega
    · intro j hj; exact hstle j hj
    · simpa [stopsPut] using hsto
    · exact ⟨a, b, hshape, fun j hj => hprod j hj⟩
    · intro hx
      have := hpj hx
      omega
    · simp [List.countP_append, List.countP_cons, List.countP_nil, RItem.isStop]
      omega
  | workerAck hpu =>
    refine ⟨?_, hcap, ?_, ?_, ?_, ?_, ?_, ?_⟩
    all_goals try dsimp only
    · omega
    · omega
    · intro j hj; exact hstle j hj
    · simpa [stopsPut] using hsto
    · exact ⟨a, b, hshape, fun j hj => hprod j hj⟩
    · intro hx
      have := hpj hx
      omega
    · exact hrq
  | workerAckStop hgo =>
    refine ⟨?_, hcap, ?_, ?_, ?_, ?_, ?_, ?_⟩
    all_goals try dsimp only
    · omega
    · omega
    · intro j hj; exact hstle j hj
    · simp only [stopsPut] at hsto ⊢; omega
    · exact ⟨a, b, hshape, fun j hj => hprod j hj⟩
    · intro hx
      have := hpj hx
      omega
    · exact hrq
  | printerWrite rest hp hrqe =>
    refine ⟨htot, hcap, hunf, fun j hj => hstle j hj, hsto,
      ⟨a, b, hshape, fun j hj => hprod j hj⟩, hpj, ?_⟩
    all_goals try dsimp only
    rw [hrqe, hp] at hrq
    simp only [List.countP_cons, RItem.isStop] at hrq
    simpa [hp] using hrq
  | printerStop rest hp hrqe =>
    refine ⟨htot, hcap, hunf, fun j hj => hstle j hj, hsto,
      ⟨a, b, hshape, fun j hj => hprod j hj⟩, hpj, ?_⟩
    all_goals try dsimp only
    rw [hrqe] at hrq
    simp [hp, List.countP_cons, RItem.isStop] at hrq ⊢
    omega

/-- Every reachable pipeline state satisfies the invariant. -/
theorem reachable_inv {n k : Nat} {s : Sys} (h : Reachable n k s) : Inv s := by
  induction h with
  | refl => exact inv_start n k
  | tail _ hstep ih => exact inv_step ih hstep

def Ev.isPutResultsStop : Ev → Bool
  | .putResultsStop => true
  | _ => false

theorem countP_replicate_any {α : Type} (p : α → Bool) (x : α) (n : Nat) :
    (List.replicate n x).countP p = if p x then n else 0 := by
  induction n with
  | zero => simp
  | succ n ih =>
    simp [List.replicate_succ, List.countP_cons, ih]
    by_cases hp : p x <;> simp [hp]

theorem pastResultsStop_pastJoin {c : CPhase} (h : c.pastResultsStop = true) :
    c.pastJoin = true := by
  cases c <;> simp_all [CPhase.pastResultsStop, CPhase.pastJoin]

/-- In any reachable state whose Results Queue has the terminal marker at
its head, every worker has exited. -/
theorem terminal_dequeue_all_exited {n k : Nat} {s : Sys} (hr : Reachable n k s)
    (hq : s.rq.head? = some RItem.stopSign) :
    s.idleW = 0 ∧ s.scoringW = 0 ∧ s.pushedW = 0 ∧ s.gotStopW = 0
      ∧ s.exitedW = s.nWorkers := by
  obtain ⟨htot, _, _, _, _, _, hpj, hrq⟩ := reachable_inv hr
  obtain ⟨rest, hrest⟩ : ∃ rest, s.rq = RItem.stopSign :: rest := by
    cases hx : s.rq with
    | nil => rw [hx] at hq; simp at hq
    | cons r rest =>
      rw [hx] at hq
      simp only [List.head?_cons, Option.some.injEq] at hq
      exact ⟨rest, by rw [hq]⟩
  have hpast : s.coord.pastResultsStop = true := by
    by_contra hfalse
    rw [Bool.not_eq_true] at hfalse
    rw [hfalse] at hrq
    simp at hrq
    have hmem := hrq.1 RItem.stopSign (by rw [hrest]; exact List.mem_cons_self _ _)
    simp [RItem.isStop] at hmem
  have hcounts := hpj (pastResultsStop_pastJoin hpast)
  exact ⟨hcounts.1, hcounts.2.1, hcounts.2.2.1, hcounts.2.2.2, by omega⟩

/-- If no worker is mid-scoring, no step can add a result to the Results
Queue. -/
theorem no_new_result {s1 s2 : Sys} (hsc : s1.scoringW = 0) (hst : Step s1 s2) :
    s2.rq.countP RItem.isResult ≤ s1.rq.countP RItem.isResult := by
  cases hst with
  | produceBatch k hc hlen => exact Nat.le_refl _
  | produceDone hc => exact Nat.le_refl _
  | putStop k hc hlen => exact Nat.le_refl _
  | stopsDone hc => exact Nat.le_refl _
  | joinReturns hc hz => exact Nat.le_refl _
  | sendResultsStop hc =>
    dsimp only
    simp [List.countP_append, List.countP_cons, RItem.isResult]
  | printerJoinReturns hc hp => exact Nat.le_refl _
  | workerGetBatch rest hidle hbq => exact Nat.le_refl _
  | workerGetStop rest hidle hbq => exact Nat.le_refl _
  | workerPush h => omega
  | workerAck h => exact Nat.le_refl _
  | workerAckStop h => exact Nat.le_refl _
  | printerWrite rest hp hrqe =>
    dsimp only
    rw [hrqe]
    simp [List.countP_cons, RItem.isResult]
  | printerStop rest hp hrqe =>
    dsimp only
    rw [hrqe]
    simp [List.countP_cons, RItem.isResult]

/-! ### C1: the terminal marker is sent after the join, and no worker can
still push when the Sink dequeues it -/

/-- C1: the coordinator's trace puts the single `results.put(None)`
strictly between `variant_queue.join()` and `variant_printer.join()`
(which precedes the re-linearizer); and in every reachable pipeline state
where the Sink is about to dequeue the terminal marker, all workers have
exited and no pipeline step can add a further result to the Results
Queue. -/
theorem terminal_marker_after_join
    (a : Args) (t : String) (sl : List String) (rf : Bool) (h : a.seekable = true)
    (n k : Nat) (s : Sys) (hr : Reachable n k s)
    ( _hp : s.printer = PPhase.running) (hq : s.rq.head? = some RItem.stopSign) :
    (∃ pre post, (compoundRun a t sl rf).1
        = pre ++ [Ev.joinVariantQueue, Ev.putResultsStop, Ev.joinPrinter,
            Ev.sortVariantsCall "chromosome"] ++ post
      ∧ (compoundRun a t sl rf).1.countP Ev.isPutResultsStop = 1)
    ∧ (s.idleW = 0 ∧ s.scoringW = 0 ∧ s.pushedW = 0 ∧ s.gotStopW = 0
        ∧ s.exitedW = s.nWorkers)
    ∧ (∀ s2, Step s s2 → s2.rq.countP RItem.isResult ≤ s.rq.countP RItem.isResult) := by
  have hall := terminal_dequeue_all_exited hr hq
  refine ⟨⟨headerLoopEvents a.fileLines
      ++ [Ev.seekStream 0,
          Ev.addMetadata "info" "CorrectedRankScore" "1" "Integer" correctedRankDescription,
          Ev.mkJoinableQueue 1000, Ev.mkResultsQueue, Ev.mkTempFile]
      ++ (List.range a.processes).map Ev.startWorker
      ++ [Ev.startPrinter "chromosome" t, Ev.getBatchesCall a.vep true]
      ++ List.replicate a.processes Ev.putStopSign,
    [Ev.printHeadersCall a.outfile a.silent]
      ++ sl.map (fun l => Ev.printVariantCall l a.outfile "modified" a.silent)
      ++ (if rf then [] else [Ev.removeTempFile]), ?_, ?_⟩, hall,
    fun s2 hst => no_new_result hall.2.1 hst⟩
  · simp [compoundRun, h]
  · cases rf <;>
      simp [compoundRun, h, List.countP_append, List.countP_cons,
        headerLoopEvents_countP_eq_zero Ev.isPutResultsStop (fun _ => rfl) (fun _ => rfl),
        countP_map_startWorker Ev.isPutResultsStop (fun _ => rfl),
        countP_map_printVariant Ev.isPutResultsStop a.outfile "modified" a.silent
          (fun _ => rfl),
        countP_replicate_event, Ev.isPutResultsStop]

/-- A concrete pipeline state (one worker, no batches) in which the Sink
is about to dequeue the terminal marker. -/
def witSys : Sys :=
  ⟨1, .joiningPrinter, 0, 0, 0, 0, 1, [], 0, [RItem.stopSign], .running, 0⟩

theorem witSys_reachable : Reachable 1 0 witSys := by
  refine .tail (.tail (.tail (.tail (.tail (.tail (.tail .refl
    (Step.produceDone (startSys 1 0) rfl))
    (Step.putStop ⟨1, .stopping 1, 1, 0, 0, 0, 0, [], 0, [], .running, 0⟩ 0 rfl (by simp)))
    (Step.stopsDone ⟨1, .stopping 0, 1, 0, 0, 0, 0, [QItem.stopSign], 1, [], .running, 0⟩ rfl))
    (Step.workerGetStop ⟨1, .joiningQueue, 1, 0, 0, 0, 0, [QItem.stopSign], 1, [], .running, 0⟩
      [] (by simp) rfl))
    (Step.workerAckStop ⟨1, .joiningQueue, 0, 0, 0, 1, 0, [], 1, [], .running, 0⟩ (by simp)))
    (Step.joinReturns ⟨1, .joiningQueue, 0, 0, 0, 0, 1, [], 0, [], .running, 0⟩ rfl rfl))
    (Step.sendResultsStop ⟨1, .sendingStop, 0, 0, 0, 0, 1, [], 0, [], .running, 0⟩ rfl)

/-- C1 witness: the theorem applied to a concrete run and the concrete
reachable state `witSys`. -/
theorem terminal_marker_after_join_check :
    (⟨["#h", "1\t1"], true, false, none, 1, false⟩ : Args).seekable = true
    ∧ Reachable 1 0 witSys
    ∧ witSys.printer = PPhase.running
    ∧ witSys.rq.head? = some RItem.stopSign
    ∧ ((∃ pre post,
          (compoundRun ⟨["#h", "1\t1"], true, false, none, 1, false⟩ "tmp" [] false).1
            = pre ++ [Ev.joinVariantQueue, Ev.putResultsStop, Ev.joinPrinter,
                Ev.sortVariantsCall "chromosome"] ++ post
          ∧ (compoundRun ⟨["#h", "1\t1"], true, false, none, 1, false⟩ "tmp" [] false).1.countP
              Ev.isPutResultsStop = 1)
        ∧ (witSys.idleW = 0 ∧ witSys.scoringW = 0 ∧ witSys.pushedW = 0 ∧ witSys.gotStopW = 0
            ∧ witSys.exitedW = witSys.nWorkers)
        ∧ (∀ s2, Step witSys s2 →
            s2.rq.countP RItem.isResult ≤ witSys.rq.countP RItem.isResult)) :=
  ⟨rfl, witSys_reachable, rfl, rfl,
    terminal_marker_after_join ⟨["#h", "1\t1"], true, false, none, 1, false⟩ "tmp" [] false rfl
      1 0 witSys witSys_reachable rfl rfl⟩

/-! ### C6: the Batch Queue is bounded at 1000 undelivered items -/

/-- C6: the coordinator creates the Batch Queue with `maxsize=1000`; in
every reachable pipeline state at most 1000 enqueued-but-undelivered items
sit in the queue, and from a state holding exactly 1000 no step can grow
the queue — the producer's enqueue is blocked until a worker dequeues. -/
theorem batch_queue_bounded
    (a : Args) (t : String) (sl : List String) (rf : Bool) (h : a.seekable = true)
    (n k : Nat) (s : Sys) (hr : Reachable n k s) :
    (∃ pre post, (compoundRun a t sl rf).1 = pre ++ [Ev.mkJoinableQueue 1000] ++ post)
    ∧ s.bq.length ≤ 1000
    ∧ (s.bq.length = 1000 → ∀ s2, Step s s2 → ¬ s.bq.length < s2.bq.length) := by
  refine ⟨⟨headerLoopEvents a.fileLines
      ++ [Ev.seekStream 0,
          Ev.addMetadata "info" "CorrectedRankScore" "1" "Integer" correctedRankDescription],
    [Ev.mkResultsQueue, Ev.mkTempFile]
      ++ (List.range a.processes).map Ev.startWorker
      ++ [Ev.startPrinter "chromosome" t, Ev.getBatchesCall a.vep true]
      ++ List.replicate a.processes Ev.putStopSign
      ++ [Ev.joinVariantQueue, Ev.putResultsStop, Ev.joinPrinter,
          Ev.sortVariantsCall "chromosome", Ev.printHeadersCall a.outfile a.silent]
      ++ sl.map (fun l => Ev.printVariantCall l a.outfile "modified" a.silent)
      ++ (if rf then [] else [Ev.removeTempFile]), by simp [compoundRun, h]⟩,
    (reachable_inv hr).cap, ?_⟩
  intro hfull s2 hst
  cases hst with
  | produceBatch k hc hlen => omega
  | produceDone hc => simp
  | putStop k hc hlen => omega
  | stopsDone hc => simp
  | joinReturns hc hz => simp
  | sendResultsStop hc => simp
  | printerJoinReturns hc hp => simp
  | workerGetBatch rest hidle hbq => dsimp only; rw [hbq]; simp
  | workerGetStop rest hidle hbq => dsimp only; rw [hbq]; simp
  | workerPush h2 => simp
  | workerAck h2 => simp
  | workerAckStop h2 => simp
  | printerWrite rest hp hrqe => simp
  | printerStop rest hp hrqe => simp

/-- C6 witness: the theorem at a concrete run and the initial pipeline
state. -/
theorem batch_queue_bounded_check :
    (⟨["#h", "1\t1"], true, false, none, 2, false⟩ : Args).seekable = true
    ∧ Reachable 2 3 (startSys 2 3)
    ∧ ((∃ pre post,
          (compoundRun ⟨["#h", "1\t1"], true, false, none, 2, false⟩ "tmp" [] false).1
            = pre ++ [Ev.mkJoinableQueue 1000] ++ post)
        ∧ (startSys 2 3).bq.length ≤ 1000
        ∧ ((startSys 2 3).bq.length = 1000 →
            ∀ s2, Step (startSys 2 3) s2 → ¬ (startSys 2 3).bq.length < s2.bq.length)) :=
  ⟨rfl, Relation.ReflTransGen.refl,
    batch_queue_bounded ⟨["#h", "1\t1"], true, false, none, 2, false⟩ "tmp" [] false rfl
      2 3 (startSys 2 3) Relation.ReflTransGen.refl⟩

/-! ### C8: batches precede stop signs in the Batch Queue -/

/-- C8: the batching call runs synchronously in the coordinator — the
trace puts the single `get_batches` event immediately before the block of
N stop signs — and in every reachable pipeline state the Batch Queue is a
block of real batches followed by a block of stop signs; in particular if
a stop sign is at the queue's head (about to be dequeued), no batch
remains undelivered in the queue. -/
theorem batches_precede_stop_signs
    (a : Args) (t : String) (sl : List String) (rf : Bool) (h : a.seekable = true)
    (n k : Nat) (s : Sys) (hr : Reachable n k s) :
    (∃ pre post, (compoundRun a t sl rf).1
        = pre ++ [Ev.getBatchesCall a.vep true]
          ++ List.replicate a.processes Ev.putStopSign ++ post)
    ∧ (∃ x y, s.bq = List.replicate x QItem.batch ++ List.replicate y QItem.stopSign)
    ∧ (s.bq.head? = some QItem.stopSign → s.bq.countP (fun q => !q.isStop) = 0) := by
  obtain ⟨x, y, hshape, _⟩ := (reachable_inv hr).shape
  refine ⟨⟨headerLoopEvents a.fileLines
      ++ [Ev.seekStream 0,
          Ev.addMetadata "info" "CorrectedRankScore" "1" "Integer" correctedRankDescription,
          Ev.mkJoinableQueue 1000, Ev.mkResultsQueue, Ev.mkTempFile]
      ++ (List.range a.processes).map Ev.startWorker
      ++ [Ev.startPrinter "chromosome" t],
    [Ev.joinVariantQueue, Ev.putResultsStop, Ev.joinPrinter,
        Ev.sortVariantsCall "chromosome", Ev.printHeadersCall a.outfile a.silent]
      ++ sl.map (fun l => Ev.printVariantCall l a.outfile "modified" a.silent)
      ++ (if rf then [] else [Ev.removeTempFile]), by simp [compoundRun, h]⟩,
    ⟨x, y, hshape⟩, ?_⟩
  intro hq
  obtain ⟨rest, hrest⟩ : ∃ rest, s.bq = QItem.stopSign :: rest := by
    cases hx : s.bq with
    | nil => rw [hx] at hq; simp at hq
    | cons q rest =>
      rw [hx] at hq
      simp only [List.head?_cons, Option.some.injEq] at hq
      exact ⟨rest, by rw [hq]⟩
  rw [hrest] at hshape
  obtain ⟨y1, hx0, hy, hrest2⟩ := shape_head_stop hshape
  rw [hrest, hrest2]
  simp [List.countP_cons, countP_replicate_any, QItem.isStop]

/-- C8 witness: the theorem at a concrete run and the initial pipeline
state. -/
theorem batches_precede_stop_signs_check :
    (⟨["#h", "1\t1"], true, false, none, 2, false⟩ : Args).seekable = true
    ∧ Reachable 2 5 (startSys 2 5)
    ∧ ((∃ pre post,
          (compoundRun ⟨["#h", "1\t1"], true, false, none, 2, false⟩ "tmp" ["1\t1"] false).1
            = pre ++ [Ev.getBatchesCall false true]
              ++ List.replicate 2 Ev.putStopSign ++ post)
        ∧ (∃ x y, (startSys 2 5).bq
            = List.replicate x QItem.batch ++ List.replicate y QItem.stopSign)
        ∧ ((startSys 2 5).bq.head? = some QItem.stopSign →
            (startSys 2 5).bq.countP (fun q => !q.isStop) = 0)) :=
  ⟨rfl, Relation.ReflTransGen.refl,
    batches_precede_stop_signs ⟨["#h", "1\t1"], true, false, none, 2, false⟩ "tmp" ["1\t1"]
      false rfl 2 5 (startSys 2 5) Relation.ReflTransGen.refl⟩

end Genmod
